import Mathlib

/-!
Verification of the HiveSight sampling-and-inference engine (`app.py`).

The Python source is shallowly embedded:

* Python strings are Lean `String`s (a structure carrying a `List Char`);
  `str.lower()`, `str.strip()` and `str.startswith` are modelled character-wise
  as `pyLower`, `pyStrip` and `pyStartsWith`.
* The Anthropic client calls are modelled by an environment value of type
  `Except Exn Response` per call: either the call raises an exception
  (`Except.error`) or returns a response object, whose `content` field is a
  list of blocks, the first of which may or may not expose a `text` field.
* `try`/`except` control flow is made explicit: the body of a `try` block is a
  value of type `Except Exn _`, and the handler is the `Except.error` branch.
* `scipy.stats.beta.interval(conf, a, b)` is modelled by the mathematical
  quantiles of the Beta(a, b) distribution: `betaPpf a b p` is the infimum of
  the set of points of `[0,1]` at which the Beta CDF reaches `p`, and
  `betaInterval conf a b = (betaPpf ((1-conf)/2), betaPpf (1-(1-conf)/2))`,
  following scipy's documented convention for `interval`.
-/

/-! ### Python string primitives -/

/-- Python `s.lower()`: character-wise lowercasing. -/
def pyLower (s : String) : String := ⟨s.data.map Char.toLower⟩

/-- Python `s.strip()`: drop whitespace from both ends. -/
def pyStrip (s : String) : String :=
  ⟨((s.data.dropWhile Char.isWhitespace).reverse.dropWhile Char.isWhitespace).reverse⟩

/-- Python `s.startswith(p)`: `p` is a prefix of `s`, character-wise. -/
def pyStartsWith (s p : String) : Bool := p.data.isPrefixOf s.data

/-! ### The model gateway (`query_claude`, `query_claude_async`) -/

/-- Exceptions are modelled by their message. -/
abbrev Exn := String

/-- One element of a response's `content` list: either a block exposing a
`text` field, or some other block. -/
inductive Block where
  | textBlock (text : String)
  | other
  deriving DecidableEq

/-- The shape of a response from `client.messages.create`. -/
structure Response where
  content : List Block
  deriving DecidableEq

/-- The outcome of one `client.messages.create` call: it either raises or
returns a response. -/
abbrev GResult := Except Exn Response

/-- The check `response.content and isinstance(response.content, list) and
hasattr(response.content[0], "text")` from `query_claude`. -/
def shapeOk (r : Response) : Bool :=
  match r.content with
  | Block.textBlock _ :: _ => true
  | _ => false

/-- `response.content[0].text`, defaulting to `""` (only used under `shapeOk`). -/
def firstText (r : Response) : String :=
  match r.content with
  | Block.textBlock t :: _ => t
  | _ => ""

/-- The `try` block of `query_claude`: the `create` call may raise
(propagated), and when the shape check passes the function returns the
stripped text (`some`); otherwise control falls through (`none`). -/
def queryBody (g : GResult) : Except Exn (Option String) := do
  let r ← g
  pure (if shapeOk r then some (pyStrip (firstText r)) else none)

/-- `query_claude`: runs the `try` block; the `except` clause catches every
exception (printing it) and control falls through to `return "Error or no
data"`, which is also reached when the shape check fails. -/
def query_claude (g : GResult) : String :=
  match queryBody g with
  | Except.ok (some s) => s
  | Except.ok none => "Error or no data"
  | Except.error _ => "Error or no data"

/-- `asyncio.gather` without `return_exceptions`: if any of the awaited calls
raises, the exception propagates out of `gather`; otherwise the results are
collected in request order. -/
def gatherResults : List GResult → Except Exn (List Response)
  | [] => Except.ok []
  | g :: rest =>
    match g with
    | Except.error e => Except.error e
    | Except.ok r =>
      match gatherResults rest with
      | Except.error e => Except.error e
      | Except.ok rs => Except.ok (r :: rs)

/-- The list comprehension `[r.content[0].text.strip() for r in response]`:
`none` models the `AttributeError`/`IndexError` raised when some element is
malformed. -/
def extractTexts : List Response → Option (List String)
  | [] => some []
  | r :: rest =>
    match r.content with
    | Block.textBlock t :: _ => (extractTexts rest).map (fun ts => pyStrip t :: ts)
    | _ => none

/-- `query_claude_async`: gathers all `num_queries` calls; any exception is
caught by the `except` clause and the function returns the single string
`"Error or no data"` (`Sum.inr`); on success it checks only the shape of the
first response and extracts all texts (`Sum.inl`). An empty batch hits the
`response[0]` index error, also caught. -/
def query_claude_async (env : List GResult) : Sum (List String) String :=
  match gatherResults env with
  | Except.error _ => Sum.inr "Error or no data"
  | Except.ok rs =>
    match rs with
    | [] => Sum.inr "Error or no data"
    | r0 :: _ =>
      if shapeOk r0 then
        match extractTexts rs with
        | some ts => Sum.inl ts
        | none => Sum.inr "Error or no data"
      else Sum.inr "Error or no data"

/-- The sequential branch of `main`: one `query_claude` call per query index,
collected in `raw_responses` in issue order. -/
def sequentialDispatch (env : List GResult) : List String :=
  env.map query_claude

/-! ### The explanation summarizer (`summarize_explanations`) -/

/-- The secondary prompt: the fixed instruction followed by the newline-joined
explanation texts. -/
def summaryPrompt (explanations : List String) : String :=
  "Please provide a concise summary of the main points from the following explanations:\n\n"
    ++ String.intercalate "\n" explanations

/-- `summarize_explanations`: builds the summary prompt and issues one
`client.messages.create` call (modelled by `g`). There is no `try`/`except`
around the call, so an exception propagates to the caller; a malformed
response shape returns the sentinel `"Error summarizing explanations"`. -/
def summarize_explanations (explanations : List String) (g : GResult) : Except Exn String :=
  let _prompt := summaryPrompt explanations
  match g with
  | Except.error e => Except.error e
  | Except.ok r =>
    if shapeOk r then Except.ok (pyStrip (firstText r))
    else Except.ok "Error summarizing explanations"

/-! ### The response classifier (`is_valid_response`) and verdicts -/

/-- `is_valid_response` from `app.py`: in explanation mode the lowercased text
must start with `"yes"` or `"no"`; otherwise it must equal (be `in ["yes",
"no"]`) one of them exactly. No trimming is performed here. -/
def is_valid_response (response : String) (request_explanation : Bool) : Bool :=
  if request_explanation then
    pyStartsWith (pyLower response) "yes" || pyStartsWith (pyLower response) "no"
  else
    pyLower response == "yes" || pyLower response == "no"

/-- The ternary verdict assigned to one reply. -/
inductive Verdict where
  | yes
  | no
  | invalid
  deriving DecidableEq, BEq

/-- The verdict `main` assigns to one raw reply text (sequential branch,
lines 165-169: if valid, `yes` when the lowercased text starts with `"yes"`,
else `no`; invalid otherwise). -/
def verdictOf (s : String) (expl : Bool) : Verdict :=
  if is_valid_response s expl then
    (if pyStartsWith (pyLower s) "yes" then Verdict.yes else Verdict.no)
  else Verdict.invalid

/-- A raw outcome of one dispatched query: a text, or a failure. -/
inductive RawOutcome where
  | text (s : String)
  | failure
  deriving DecidableEq

/-- The string `main` actually sees for an outcome: failures are represented
by the sentinel string the gateway returns. -/
def outcomeString : RawOutcome → String
  | RawOutcome.text s => s
  | RawOutcome.failure => "Error or no data"

/-- Classification of a raw outcome, as performed by `main`. -/
def classifyOutcome (o : RawOutcome) (expl : Bool) : Verdict :=
  verdictOf (outcomeString o) expl

/-! ### Counting (`main`, async branch lines 139-151, sequential lines 160-172) -/

/-- The per-reply flag counted into `yes_count` (async branch):
`r_text.lower().startswith("yes") and is_valid`. -/
def yesFlag (r : String) (expl : Bool) : Bool :=
  pyStartsWith (pyLower r) "yes" && is_valid_response r expl

/-- The per-reply flag counted into `no_count` (async branch). -/
def noFlag (r : String) (expl : Bool) : Bool :=
  pyStartsWith (pyLower r) "no" && is_valid_response r expl

/-- `yes_count = sum(yes_responses)`. -/
def yes_count (raw : List String) (expl : Bool) : Nat :=
  raw.countP (fun r => yesFlag r expl)

/-- `no_count = sum(no_responses)`. -/
def no_count (raw : List String) (expl : Bool) : Nat :=
  raw.countP (fun r => noFlag r expl)

/-- `valid_responses = sum(valid_responses)`. -/
def valid_responses (raw : List String) (expl : Bool) : Nat :=
  raw.countP (fun r => is_valid_response r expl)

/-- The number of replies classified `Invalid`. -/
def invalid_count (raw : List String) (expl : Bool) : Nat :=
  raw.countP (fun r => verdictOf r expl == Verdict.invalid)

/-- One iteration of the sequential loop of `main`: the accumulator is
`(yes_count, no_count, valid_responses, explanations)`. -/
def seqStep (expl : Bool) (acc : Nat × Nat × Nat × List String) (r : String) :
    Nat × Nat × Nat × List String :=
  if is_valid_response r expl then
    if pyStartsWith (pyLower r) "yes" then
      (acc.1 + 1, acc.2.1, acc.2.2.1 + 1, if expl then acc.2.2.2 ++ [r] else acc.2.2.2)
    else
      (acc.1, acc.2.1 + 1, acc.2.2.1 + 1, if expl then acc.2.2.2 ++ [r] else acc.2.2.2)
  else acc

/-- The sequential loop of `main` over the raw replies. -/
def seqLoop (raw : List String) (expl : Bool) : Nat × Nat × Nat × List String :=
  raw.foldl (seqStep expl) (0, 0, 0, [])

/-- The async branch sets `explanations = raw_responses if request_explanation
else []` (line 152): every raw reply, valid or not, is kept. -/
def asyncExplanations (raw : List String) (request_explanation : Bool) : List String :=
  if request_explanation then raw else []

/-- Line 179: the summarizer runs iff `request_explanation and
valid_responses > 0`. -/
def summarizerRuns (request_explanation : Bool) (valid : Nat) : Bool :=
  request_explanation && decide (0 < valid)

/-! ### The Beta posterior interval (`scipy.stats.beta.interval`) -/

/-- The unnormalised Beta(a, b) density `t ^ (a-1) * (1-t) ^ (b-1)` for
natural parameters `a, b ≥ 1`. -/
def betaWeight (a b : Nat) (t : ℝ) : ℝ := t ^ (a - 1) * (1 - t) ^ (b - 1)

/-- The incomplete Beta integral from `0` to `x`. -/
noncomputable def betaNum (a b : Nat) (x : ℝ) : ℝ :=
  ∫ t in (0:ℝ)..x, betaWeight a b t

/-- The Beta(a, b) cumulative distribution function on `[0, 1]`. -/
noncomputable def betaCDF (a b : Nat) (x : ℝ) : ℝ :=
  betaNum a b x / betaNum a b 1

/-- The set of points of `[0, 1]` at which the Beta(a, b) CDF has reached `p`. -/
def ppfSet (a b : Nat) (p : ℝ) : Set ℝ :=
  {x : ℝ | x ∈ Set.Icc (0:ℝ) 1 ∧ p ≤ betaCDF a b x}

/-- The Beta(a, b) quantile (percent-point) function: the first point of
`[0, 1]` at which the CDF reaches `p`.  This is `scipy.stats.beta.ppf(p, a, b)`. -/
noncomputable def betaPpf (a b : Nat) (p : ℝ) : ℝ :=
  sInf (ppfSet a b p)

/-- `scipy.stats.beta.interval(conf, a, b)`: the central interval
`(ppf((1-conf)/2), ppf(1-(1-conf)/2))`. -/
noncomputable def betaInterval (conf : ℝ) (a b : Nat) : ℝ × ℝ :=
  (betaPpf a b ((1 - conf) / 2), betaPpf a b (1 - (1 - conf) / 2))

/-! ### The final numeric report (`main`, lines 186-214) -/

/-- The numbers shown in the success message: `yes_percentage` and the two
confidence-interval bounds, all as percentages. -/
structure NumReport where
  estimate : ℝ
  ciLow : ℝ
  ciHigh : ℝ

/-- The numeric part of `main`'s report: when `valid_responses > 0` it shows
`yes_count / valid_responses * 100` and `beta.interval(0.95, yes_count + 1,
no_count + 1)` scaled to percentages; otherwise (`none`) it shows the
"No valid responses received from Claude." error instead. -/
noncomputable def mainNum (raw : List String) (expl : Bool) : Option NumReport :=
  if 0 < valid_responses raw expl then
    some ⟨(yes_count raw expl : ℝ) / (valid_responses raw expl : ℝ) * 100,
          (betaInterval 0.95 (yes_count raw expl + 1) (no_count raw expl + 1)).1 * 100,
          (betaInterval 0.95 (yes_count raw expl + 1) (no_count raw expl + 1)).2 * 100⟩
  else none

/-! ### String-level helper lemmas -/

/-- A string starting with `"yes"` cannot start with `"no"`. -/
theorem startsYes_not_no (l : String) (h : pyStartsWith l "yes" = true) :
    pyStartsWith l "no" = false := by
  obtain ⟨d⟩ := l
  have hy : "yes".data = ['y', 'e', 's'] := rfl
  have hn : "no".data = ['n', 'o'] := rfl
  unfold pyStartsWith at h ⊢
  rw [hy] at h
  rw [hn]
  cases d with
  | nil => simp [List.isPrefixOf] at h
  | cons c t =>
    rw [List.isPrefixOf_cons₂] at h ⊢
    rw [Bool.and_eq_true] at h
    have hc : c = 'y' := (beq_iff_eq.mp h.1).symm
    subst hc
    simp

/-- A string starting with `"no"` cannot start with `"yes"`. -/
theorem startsNo_not_yes (l : String) (h : pyStartsWith l "no" = true) :
    pyStartsWith l "yes" = false := by
  obtain ⟨d⟩ := l
  have hy : "yes".data = ['y', 'e', 's'] := rfl
  have hn : "no".data = ['n', 'o'] := rfl
  unfold pyStartsWith at h ⊢
  rw [hn] at h
  rw [hy]
  cases d with
  | nil => simp [List.isPrefixOf] at h
  | cons c t =>
    rw [List.isPrefixOf_cons₂] at h ⊢
    rw [Bool.and_eq_true] at h
    have hc : c = 'n' := (beq_iff_eq.mp h.1).symm
    subst hc
    simp

/-- Validity in terse mode: the lowercased text is exactly `"yes"` or `"no"`. -/
theorem valid_terse_iff (s : String) :
    is_valid_response s false = true ↔ (pyLower s = "yes" ∨ pyLower s = "no") := by
  simp [is_valid_response]

/-- Validity in explanation mode: the lowercased text starts with `"yes"` or
with `"no"`. -/
theorem valid_expl_iff (s : String) :
    is_valid_response s true = true ↔
      (pyStartsWith (pyLower s) "yes" = true ∨ pyStartsWith (pyLower s) "no" = true) := by
  simp [is_valid_response]

/-- Each reply falls in exactly one of three cases: invalid, counted as yes,
or counted as no; the verdict, the yes/no flags of the async branch and the
branch taken by the sequential loop agree in each case. -/
theorem flagTrichotomy (r : String) (expl : Bool) :
    (is_valid_response r expl = false ∧ yesFlag r expl = false ∧ noFlag r expl = false
      ∧ verdictOf r expl = Verdict.invalid) ∨
    (is_valid_response r expl = true ∧ pyStartsWith (pyLower r) "yes" = true
      ∧ yesFlag r expl = true ∧ noFlag r expl = false ∧ verdictOf r expl = Verdict.yes) ∨
    (is_valid_response r expl = true ∧ pyStartsWith (pyLower r) "yes" = false
      ∧ yesFlag r expl = false ∧ noFlag r expl = true ∧ verdictOf r expl = Verdict.no) := by
  by_cases hv : is_valid_response r expl = true
  · by_cases hy : pyStartsWith (pyLower r) "yes" = true
    · refine Or.inr (Or.inl ⟨hv, hy, ?_, ?_, ?_⟩)
      · simp [yesFlag, hv, hy]
      · simp [noFlag, startsYes_not_no _ hy]
      · simp [verdictOf, hv, hy]
    · have hy' : pyStartsWith (pyLower r) "yes" = false := by
        simpa using hy
      have hn : pyStartsWith (pyLower r) "no" = true := by
        cases expl with
        | false =>
          rcases (valid_terse_iff r).mp hv with h | h
          · rw [h] at hy'
            exact absurd hy' (by decide)
          · rw [h]; decide
        | true =>
          rcases (valid_expl_iff r).mp hv with h | h
          · exact absurd h (by simp [hy'])
          · exact h
      refine Or.inr (Or.inr ⟨hv, hy', ?_, ?_, ?_⟩)
      · simp [yesFlag, hy']
      · simp [noFlag, hn, hv]
      · simp [verdictOf, hv, hy']
  · have hv' : is_valid_response r expl = false := by simpa using hv
    exact Or.inl ⟨hv', by simp [yesFlag, hv'], by simp [noFlag, hv'],
      by simp [verdictOf, hv']⟩

/-- The verdict is `yes` exactly when the async yes-flag is set. -/
theorem verdict_yes_iff (s : String) (expl : Bool) :
    verdictOf s expl = Verdict.yes ↔ yesFlag s expl = true := by
  rcases flagTrichotomy s expl with ⟨_, hy, _, hverd⟩ | ⟨_, _, hy, _, hverd⟩
    | ⟨_, _, hy, _, hverd⟩ <;> simp [hy, hverd]

/-- The verdict is `no` exactly when the async no-flag is set. -/
theorem verdict_no_iff (s : String) (expl : Bool) :
    verdictOf s expl = Verdict.no ↔ noFlag s expl = true := by
  rcases flagTrichotomy s expl with ⟨_, _, hn, hverd⟩ | ⟨_, _, _, hn, hverd⟩
    | ⟨_, _, _, hn, hverd⟩ <;> simp [hn, hverd]

/-- The verdict is `invalid` exactly when `is_valid_response` rejects. -/
theorem verdict_invalid_iff (s : String) (expl : Bool) :
    verdictOf s expl = Verdict.invalid ↔ is_valid_response s expl = false := by
  rcases flagTrichotomy s expl with ⟨hv, _, _, hverd⟩ | ⟨hv, _, _, _, hverd⟩
    | ⟨hv, _, _, _, hverd⟩ <;> simp [hv, hverd]

/-- In explanation mode the yes-flag reduces to the bare prefix test. -/
theorem yesFlag_expl (s : String) : yesFlag s true = pyStartsWith (pyLower s) "yes" := by
  unfold yesFlag is_valid_response
  cases h : pyStartsWith (pyLower s) "yes" <;> simp [h]

/-- In explanation mode the no-flag reduces to the bare prefix test. -/
theorem noFlag_expl (s : String) : noFlag s true = pyStartsWith (pyLower s) "no" := by
  unfold noFlag is_valid_response
  cases h : pyStartsWith (pyLower s) "no" <;> simp [h]

/-- In terse mode the yes-flag reduces to the exact-equality test. -/
theorem yesFlag_terse (s : String) : yesFlag s false = (pyLower s == "yes") := by
  unfold yesFlag is_valid_response
  by_cases h : pyLower s = "yes"
  · rw [h]; decide
  · by_cases h2 : pyLower s = "no"
    · rw [h2]; decide
    · have hb1 : (pyLower s == "yes") = false := beq_eq_false_iff_ne.mpr h
      have hb2 : (pyLower s == "no") = false := beq_eq_false_iff_ne.mpr h2
      simp [hb1, hb2]

/-- In terse mode the no-flag reduces to the exact-equality test. -/
theorem noFlag_terse (s : String) : noFlag s false = (pyLower s == "no") := by
  unfold noFlag is_valid_response
  by_cases h : pyLower s = "no"
  · rw [h]; decide
  · by_cases h2 : pyLower s = "yes"
    · rw [h2]; decide
    · have hb1 : (pyLower s == "yes") = false := beq_eq_false_iff_ne.mpr h2
      have hb2 : (pyLower s == "no") = false := beq_eq_false_iff_ne.mpr h
      simp [hb1, hb2]

/-! ### Counting lemmas -/

/-- Partition of the counts over any list of raw reply texts. -/
theorem counts_partition (raw : List String) (expl : Bool) :
    yes_count raw expl + no_count raw expl + invalid_count raw expl = raw.length ∧
    yes_count raw expl + no_count raw expl = valid_responses raw expl := by
  induction raw with
  | nil => simp [yes_count, no_count, invalid_count, valid_responses]
  | cons r rest ih =>
    obtain ⟨ih1, ih2⟩ := ih
    have hcy : yes_count (r :: rest) expl
        = yes_count rest expl + (if yesFlag r expl then 1 else 0) := by
      simp [yes_count, List.countP_cons]
    have hcn : no_count (r :: rest) expl
        = no_count rest expl + (if noFlag r expl then 1 else 0) := by
      simp [no_count, List.countP_cons]
    have hcv : valid_responses (r :: rest) expl
        = valid_responses rest expl + (if is_valid_response r expl then 1 else 0) := by
      simp [valid_responses, List.countP_cons]
    have hci : invalid_count (r :: rest) expl
        = invalid_count rest expl + (if verdictOf r expl == Verdict.invalid then 1 else 0) := by
      simp [invalid_count, List.countP_cons]
    have e1 : (Verdict.yes == Verdict.invalid) = false := rfl
    have e2 : (Verdict.no == Verdict.invalid) = false := rfl
    have e3 : (Verdict.invalid == Verdict.invalid) = true := rfl
    rcases flagTrichotomy r expl with ⟨hv, hy, hn, hverd⟩ | ⟨hv, _, hy, hn, hverd⟩
      | ⟨hv, _, hy, hn, hverd⟩ <;>
      rw [hcy, hcn, hcv, hci, hv, hy, hn, hverd] <;> simp [e1, e2, e3] <;> omega

/-- The sequential loop, started from any accumulator, adds exactly the
async-style counts. -/
theorem seqLoop_go (expl : Bool) (raw : List String) :
    ∀ y n v ex,
      ((List.foldl (seqStep expl) (y, n, v, ex) raw).1 = y + yes_count raw expl) ∧
      ((List.foldl (seqStep expl) (y, n, v, ex) raw).2.1 = n + no_count raw expl) ∧
      ((List.foldl (seqStep expl) (y, n, v, ex) raw).2.2.1 = v + valid_responses raw expl) := by
  induction raw with
  | nil => intro y n v ex; simp [yes_count, no_count, valid_responses]
  | cons r rest ih =>
    intro y n v ex
    rw [List.foldl_cons]
    have hcy : yes_count (r :: rest) expl
        = yes_count rest expl + (if yesFlag r expl then 1 else 0) := by
      simp [yes_count, List.countP_cons]
    have hcn : no_count (r :: rest) expl
        = no_count rest expl + (if noFlag r expl then 1 else 0) := by
      simp [no_count, List.countP_cons]
    have hcv : valid_responses (r :: rest) expl
        = valid_responses rest expl + (if is_valid_response r expl then 1 else 0) := by
      simp [valid_responses, List.countP_cons]
    rcases flagTrichotomy r expl with ⟨hv, hy, hn, _⟩ | ⟨hv, hsw, hy, hn, _⟩
      | ⟨hv, hsw, hy, hn, _⟩
    · have hstep : seqStep expl (y, n, v, ex) r = (y, n, v, ex) := by
        simp [seqStep, hv]
      rw [hstep, hcy, hcn, hcv, hy, hn, hv]
      obtain ⟨h1, h2, h3⟩ := ih y n v ex
      simp [h1, h2, h3]
    · have hstep : seqStep expl (y, n, v, ex) r
          = (y + 1, n, v + 1, if expl then ex ++ [r] else ex) := by
        simp [seqStep, hv, hsw]
      rw [hstep, hcy, hcn, hcv, hy, hn, hv]
      obtain ⟨h1, h2, h3⟩ := ih (y + 1) n (v + 1) (if expl then ex ++ [r] else ex)
      simp [h1, h2, h3]
      omega
    · have hstep : seqStep expl (y, n, v, ex) r
          = (y, n + 1, v + 1, if expl then ex ++ [r] else ex) := by
        simp [seqStep, hv, hsw]
      rw [hstep, hcy, hcn, hcv, hy, hn, hv]
      obtain ⟨h1, h2, h3⟩ := ih y (n + 1) (v + 1) (if expl then ex ++ [r] else ex)
      simp [h1, h2, h3]
      omega

/-! ### Beta interval lemmas -/

/-- The Beta weight function is continuous. -/
theorem betaWeight_cont (a b : Nat) : Continuous (betaWeight a b) := by
  unfold betaWeight
  exact (continuous_pow _).mul ((continuous_const.sub continuous_id).pow _)

/-- The full Beta integral is positive, for every pair of natural parameters. -/
theorem betaNum_one_pos (a b : Nat) : 0 < betaNum a b 1 := by
  unfold betaNum
  apply intervalIntegral.intervalIntegral_pos_of_pos_on
  · exact (betaWeight_cont a b).intervalIntegrable 0 1
  · intro x hx
    unfold betaWeight
    exact mul_pos (pow_pos hx.1 _) (pow_pos (by linarith [hx.2]) _)
  · norm_num

/-- The Beta CDF reaches `1` at the right endpoint. -/
theorem betaCDF_one (a b : Nat) : betaCDF a b 1 = 1 :=
  div_self (ne_of_gt (betaNum_one_pos a b))

/-- The quantile set is nonempty for levels at most `1`. -/
theorem ppfSet_nonempty (a b : Nat) (p : ℝ) (hp : p ≤ 1) : (ppfSet a b p).Nonempty :=
  ⟨1, ⟨Set.mem_Icc.mpr ⟨zero_le_one, le_refl 1⟩, by rw [betaCDF_one]; exact hp⟩⟩

/-- The quantile set is bounded below by `0`. -/
theorem ppfSet_bddBelow (a b : Nat) (p : ℝ) : BddBelow (ppfSet a b p) :=
  ⟨0, fun _ hx => hx.1.1⟩

/-- Quantiles are nonnegative. -/
theorem betaPpf_nonneg (a b : Nat) (p : ℝ) (hp : p ≤ 1) : 0 ≤ betaPpf a b p :=
  le_csInf (ppfSet_nonempty a b p hp) (fun _ hx => hx.1.1)

/-- Quantiles are at most `1`. -/
theorem betaPpf_le_one (a b : Nat) (p : ℝ) (hp : p ≤ 1) : betaPpf a b p ≤ 1 :=
  csInf_le (ppfSet_bddBelow a b p)
    ⟨Set.mem_Icc.mpr ⟨zero_le_one, le_refl 1⟩, by rw [betaCDF_one]; exact hp⟩

/-- Quantiles are monotone in the level. -/
theorem betaPpf_mono (a b : Nat) (p q : ℝ) (hpq : p ≤ q) (hq : q ≤ 1) :
    betaPpf a b p ≤ betaPpf a b q :=
  csInf_le_csInf (ppfSet_bddBelow a b p) (ppfSet_nonempty a b q hq)
    (fun _ hx => ⟨hx.1, le_trans hpq hx.2⟩)

/-- With second parameter `1` the Beta CDF is `x ^ a`. -/
theorem betaCDF_b_one (a : Nat) (ha : 1 ≤ a) (x : ℝ) : betaCDF a 1 x = x ^ a := by
  have key : ∀ y : ℝ, betaNum a 1 y = y ^ a / a := by
    intro y
    unfold betaNum betaWeight
    simp only [Nat.sub_self, pow_zero, mul_one]
    rw [integral_pow, Nat.sub_add_cancel ha, Nat.cast_sub ha]
    have hz : (0:ℝ) ^ a = 0 := zero_pow (by omega)
    rw [hz]
    push_cast
    ring
  unfold betaCDF
  rw [key, key, one_pow]
  have hA : (a:ℝ) ≠ 0 := Nat.cast_ne_zero.mpr (by omega)
  field_simp

/-- With first parameter `1` the Beta CDF is `1 - (1 - x) ^ b`. -/
theorem betaCDF_a_one (b : Nat) (hb : 1 ≤ b) (x : ℝ) : betaCDF 1 b x = 1 - (1 - x) ^ b := by
  have key : ∀ y : ℝ, betaNum 1 b y = (1 - (1 - y) ^ b) / b := by
    intro y
    unfold betaNum betaWeight
    simp only [Nat.sub_self, pow_zero, one_mul]
    rw [intervalIntegral.integral_comp_sub_left (fun u : ℝ => u ^ (b - 1)) 1]
    rw [integral_pow, Nat.sub_add_cancel hb, Nat.cast_sub hb]
    push_cast
    ring
  unfold betaCDF
  rw [key, key]
  have h0 : ((1:ℝ) - 1) ^ b = 0 := by
    rw [sub_self]
    exact zero_pow (by omega)
  rw [h0]
  have hB : (b:ℝ) ≠ 0 := Nat.cast_ne_zero.mpr (by omega)
  field_simp

/-- When the second Beta parameter is `1` (no observed "no"), every quantile
at a level below `1` stays strictly below `1`. -/
theorem betaPpf_b_one_lt_one (a : Nat) (ha : 1 ≤ a) (p : ℝ) (hp0 : 0 ≤ p) (hp1 : p < 1) :
    betaPpf a 1 p < 1 := by
  have hane : a ≠ 0 := by omega
  have hainv : (0:ℝ) < (a : ℝ)⁻¹ := by
    have : (0:ℝ) < (a : ℝ) := by exact_mod_cast Nat.pos_of_ne_zero hane
    exact inv_pos.mpr this
  have h0 : 0 ≤ p ^ ((a : ℝ)⁻¹) := Real.rpow_nonneg hp0 _
  have hlt : p ^ ((a : ℝ)⁻¹) < 1 := Real.rpow_lt_one hp0 hp1 hainv
  have hpow : (p ^ ((a : ℝ)⁻¹)) ^ a = p := Real.rpow_inv_natCast_pow hp0 hane
  have hmem : p ^ ((a : ℝ)⁻¹) ∈ ppfSet a 1 p :=
    ⟨Set.mem_Icc.mpr ⟨h0, hlt.le⟩, by rw [betaCDF_b_one a ha, hpow]⟩
  exact lt_of_le_of_lt (csInf_le (ppfSet_bddBelow _ _ _) hmem) hlt

/-- When the first Beta parameter is `1` (no observed "yes"), every quantile
at a positive level is strictly positive. -/
theorem betaPpf_a_one_pos (b : Nat) (hb : 1 ≤ b) (p : ℝ) (hp0 : 0 < p) (hp1 : p ≤ 1) :
    0 < betaPpf 1 b p := by
  have hbne : b ≠ 0 := by omega
  have hbinv : (0:ℝ) < (b : ℝ)⁻¹ := by
    have : (0:ℝ) < (b : ℝ) := by exact_mod_cast Nat.pos_of_ne_zero hbne
    exact inv_pos.mpr this
  have h1p : (0:ℝ) ≤ 1 - p := by linarith
  have hq1 : (1 - p : ℝ) < 1 := by linarith
  have hroot_lt : (1 - p : ℝ) ^ ((b:ℝ)⁻¹) < 1 := Real.rpow_lt_one h1p hq1 hbinv
  have hlb : ∀ x ∈ ppfSet 1 b p, 1 - (1 - p) ^ ((b:ℝ)⁻¹) ≤ x := by
    intro x hx
    obtain ⟨hxIcc, hcdf⟩ := hx
    obtain ⟨hx0, hx1⟩ := Set.mem_Icc.mp hxIcc
    rw [betaCDF_a_one b hb] at hcdf
    have h2 : (1 - x) ^ b ≤ 1 - p := by linarith
    have h3 : (1 - x : ℝ) ≤ (1 - p) ^ ((b:ℝ)⁻¹) := by
      by_contra hcon
      push_neg at hcon
      have h4 : ((1 - p) ^ ((b:ℝ)⁻¹)) ^ b < (1 - x) ^ b :=
        pow_lt_pow_left₀ hcon (Real.rpow_nonneg h1p _) hbne
      rw [Real.rpow_inv_natCast_pow h1p hbne] at h4
      linarith
    linarith
  have hle := le_csInf (ppfSet_nonempty 1 b p hp1) hlb
  have : (0:ℝ) < 1 - (1 - p) ^ ((b:ℝ)⁻¹) := by linarith
  exact lt_of_lt_of_le this hle

/-- Evaluating the scipy convention at confidence `0.95`: the interval is the
pair of the 2.5th and 97.5th percentiles. -/
theorem betaInterval_095 (a b : Nat) :
    betaInterval 0.95 a b = (betaPpf a b 0.025, betaPpf a b 0.975) := by
  unfold betaInterval
  norm_num

/-- A successful async extraction yields exactly the stripped first texts, in
order. -/
theorem extractTexts_eq_map (rs : List Response) :
    ∀ ts : List String, extractTexts rs = some ts →
      ts = rs.map (fun x => pyStrip (firstText x)) := by
  induction rs with
  | nil =>
    intro ts h
    simp [extractTexts] at h
    simp [h.symm]
  | cons r rest ih =>
    intro ts h
    obtain ⟨content⟩ := r
    cases content with
    | nil => simp [extractTexts] at h
    | cons blk brest =>
      cases blk with
      | other => simp [extractTexts] at h
      | textBlock t =>
        cases hext : extractTexts rest with
        | none => simp [extractTexts, hext] at h
        | some ts2 =>
          simp [extractTexts, hext] at h
          rw [← h, ih ts2 hext]
          simp [firstText]

/-! ### Claim theorems -/

/-- C1: In sequential mode the dispatcher returns one outcome per query, each
position carrying exactly the outcome of its own gateway call, so one failure
never disturbs the others.  In async mode, however, a single failing call
makes `query_claude_async` return the single string `"Error or no data"`
instead of a `sampleSize`-length sequence: the successful outcome of call 0 is
lost (the code bug behind this claim). -/
theorem dispatch_seq_isolates_failures_async_collapses :
    (∀ env : List GResult, (sequentialDispatch env).length = env.length) ∧
    (∀ env : List GResult, ∀ i : Nat,
      (sequentialDispatch env)[i]? = (env[i]?).map query_claude) ∧
    query_claude_async [Except.ok ⟨[Block.textBlock "yes"]⟩, Except.error "timeout"]
      = Sum.inr "Error or no data" := by
  refine ⟨?_, ?_, rfl⟩
  · intro env; simp [sequentialDispatch]
  · intro env i; simp [sequentialDispatch]

/-- C2 counterexample: a transport error in the summarization call is not
converted to a sentinel string; the exception propagates out of
`summarize_explanations` (there is no `try`/`except` in that function). -/
theorem summarize_transport_error_propagates :
    (summarize_explanations ["x"] (Except.error "boom")).isOk = false := rfl

/-- C2 amended: `summarize_explanations` returns a string whenever the
gateway call itself returns a response — the sentinel
`"Error summarizing explanations"` on a malformed shape, the stripped summary
text otherwise — but a raised transport exception propagates unchanged to the
caller. -/
theorem summarize_value_iff_no_exception (explanations : List String) (r : Response)
    (e : Exn) :
    summarize_explanations explanations (Except.error e) = Except.error e ∧
    summarize_explanations explanations (Except.ok r)
      = Except.ok (if shapeOk r then pyStrip (firstText r)
                   else "Error summarizing explanations") := by
  constructor
  · rfl
  · by_cases h : shapeOk r <;> simp [summarize_explanations, h]

/-- C3 counterexample: on the text `" yes"` the trimmed lowercase text is
exactly `"yes"`, so the claim demands verdict `Yes`; the classifier performs
no trimming and returns `Invalid`. -/
theorem classifier_trim_cex :
    verdictOf " yes" false = Verdict.invalid ∧ pyLower (pyStrip " yes") = "yes" := by
  constructor <;> decide

/-- C3 amended: the classifier is a total function of the raw outcome and the
mode, with a failure always `Invalid`; in terse mode the verdict is `Yes`/`No`
iff the lowercase (untrimmed) text equals exactly `"yes"`/`"no"`, and in
explanation mode iff the lowercase (untrimmed) text starts with
`"yes"`/`"no"`; anything else is `Invalid`. -/
theorem classifier_characterization (s : String) (expl : Bool) :
    classifyOutcome RawOutcome.failure expl = Verdict.invalid ∧
    (verdictOf s false = Verdict.yes ↔ pyLower s = "yes") ∧
    (verdictOf s false = Verdict.no ↔ pyLower s = "no") ∧
    (verdictOf s true = Verdict.yes ↔ pyStartsWith (pyLower s) "yes" = true) ∧
    (verdictOf s true = Verdict.no ↔ pyStartsWith (pyLower s) "no" = true) ∧
    (verdictOf s expl = Verdict.invalid ↔ is_valid_response s expl = false) := by
  refine ⟨?_, ?_, ?_, ?_, ?_, verdict_invalid_iff s expl⟩
  · cases expl <;> decide
  · rw [verdict_yes_iff, yesFlag_terse]
    exact beq_iff_eq
  · rw [verdict_no_iff, noFlag_terse]
    exact beq_iff_eq
  · rw [verdict_yes_iff, yesFlag_expl]
  · rw [verdict_no_iff, noFlag_expl]

/-- C6: with explanations requested in async mode, the summarizer is invoked
(valid count is positive) but its input is every raw reply, including the
invalid `"maybe"`, so the summary prompt contains an unaccepted text; the
sequential loop instead keeps only the accepted text. -/
theorem async_summary_prompt_includes_invalid_text :
    summarizerRuns true (valid_responses ["yes because warm", "maybe"] true) = true ∧
    verdictOf "maybe" true = Verdict.invalid ∧
    asyncExplanations ["yes because warm", "maybe"] true = ["yes because warm", "maybe"] ∧
    (seqLoop ["yes because warm", "maybe"] true).2.2.2 = ["yes because warm"] ∧
    summaryPrompt (asyncExplanations ["yes because warm", "maybe"] true)
      = "Please provide a concise summary of the main points from the following explanations:\n\nyes because warm\nmaybe" := by
  refine ⟨by decide, by decide, rfl, by decide, rfl⟩

/-- C7: over any sequence of raw reply texts, in either counting style, the
three verdict counts partition the sequence (each reply is counted under
exactly one verdict) and the yes/no counts sum to the valid-response count;
the sequential loop produces the same three counts as the async flags. -/
theorem counts_partition_both_modes (raw : List String) (expl : Bool) :
    yes_count raw expl + no_count raw expl + invalid_count raw expl = raw.length ∧
    yes_count raw expl + no_count raw expl = valid_responses raw expl ∧
    (seqLoop raw expl).1 = yes_count raw expl ∧
    (seqLoop raw expl).2.1 = no_count raw expl ∧
    (seqLoop raw expl).2.2.1 = valid_responses raw expl := by
  obtain ⟨h1, h2⟩ := counts_partition raw expl
  obtain ⟨g1, g2, g3⟩ := seqLoop_go expl raw 0 0 0 []
  exact ⟨h1, h2, by simpa [seqLoop] using g1, by simpa [seqLoop] using g2,
    by simpa [seqLoop] using g3⟩

/-- C9 counterexample: the value returned on failure is the fixed sentinel
`"Error or no data"`, identical for distinct causes — the captured cause is
printed, not carried in the returned value. -/
theorem gateway_failure_value_ignores_cause :
    query_claude (Except.error "timeout") = "Error or no data" ∧
    query_claude (Except.error "connection refused") = "Error or no data" ∧
    ("timeout" : Exn) ≠ "connection refused" := by
  refine ⟨rfl, rfl, by decide⟩

/-- C9 amended: a single `query_claude` call always returns a string value to
its caller — the stripped text on a well-shaped success, and the fixed
sentinel `"Error or no data"` (not carrying the cause) on any raised
exception or malformed response shape; the catch-all `except` clause lets no
exception escape. -/
theorem gateway_total_value (r : Response) (e : Exn) :
    query_claude (Except.error e) = "Error or no data" ∧
    query_claude (Except.ok r)
      = (if shapeOk r then pyStrip (firstText r) else "Error or no data") := by
  constructor
  · rfl
  · by_cases h : shapeOk r <;> simp [query_claude, queryBody, h]

/-- C10: every text outcome produced by the gateway is stripped before
classification — `query_claude` returns `pyStrip` of the response text, and
every element of a successful async batch is `pyStrip` of its response text —
while the classifier itself performs no trimming: the raw text `" yes"` is
classified `Invalid`, whereas its stripped form is classified `Yes`. -/
theorem gateway_strips_classifier_does_not (r : Response) (h : shapeOk r = true)
    (env : List GResult) (ts : List String) (h2 : query_claude_async env = Sum.inl ts) :
    query_claude (Except.ok r) = pyStrip (firstText r) ∧
    (∃ rs : List Response, gatherResults env = Except.ok rs
      ∧ ts = rs.map (fun x => pyStrip (firstText x))) ∧
    verdictOf " yes" false = Verdict.invalid ∧
    verdictOf (pyStrip " yes") false = Verdict.yes := by
  refine ⟨by simp [query_claude, queryBody, h], ?_, by decide, by decide⟩
  unfold query_claude_async at h2
  cases hg : gatherResults env with
  | error e => rw [hg] at h2; simp at h2
  | ok rs =>
    rw [hg] at h2
    cases rs with
    | nil => simp at h2
    | cons r0 rest =>
      by_cases hs : shapeOk r0
      · cases hext : extractTexts (r0 :: rest) with
        | none => simp [hs, hext] at h2
        | some ts2 =>
          simp [hs, hext] at h2
          subst h2
          exact ⟨r0 :: rest, rfl, extractTexts_eq_map _ _ hext⟩
      · simp [hs] at h2

/-- Witness for C10 at a concrete well-shaped response and a concrete
successful async batch. -/
theorem gateway_strips_witness :
    shapeOk ⟨[Block.textBlock " ok "]⟩ = true ∧
    query_claude_async [Except.ok ⟨[Block.textBlock " yes "]⟩] = Sum.inl ["yes"] ∧
    (query_claude (Except.ok ⟨[Block.textBlock " ok "]⟩)
        = pyStrip (firstText ⟨[Block.textBlock " ok "]⟩) ∧
      (∃ rs : List Response, gatherResults [Except.ok ⟨[Block.textBlock " yes "]⟩] = Except.ok rs
        ∧ ["yes"] = rs.map (fun x => pyStrip (firstText x))) ∧
      verdictOf " yes" false = Verdict.invalid ∧
      verdictOf (pyStrip " yes") false = Verdict.yes) :=
  ⟨by decide, by decide,
    gateway_strips_classifier_does_not ⟨[Block.textBlock " ok "]⟩ (by decide)
      [Except.ok ⟨[Block.textBlock " yes "]⟩] ["yes"] (by decide)⟩

/-- C4: whenever at least one valid response exists, the reported estimate is
`yesCount / (yesCount + noCount)` as a percentage (the code divides by
`valid_responses`, which equals `yesCount + noCount`); with zero valid
responses no numeric report is produced — `main` shows the
"no valid responses" error instead. -/
theorem estimate_ratio_and_zero_valid (raw : List String) (expl : Bool) :
    (0 < valid_responses raw expl →
      mainNum raw expl = some
        ⟨(yes_count raw expl : ℝ) / ((yes_count raw expl : ℝ) + (no_count raw expl : ℝ)) * 100,
         (betaInterval 0.95 (yes_count raw expl + 1) (no_count raw expl + 1)).1 * 100,
         (betaInterval 0.95 (yes_count raw expl + 1) (no_count raw expl + 1)).2 * 100⟩) ∧
    (valid_responses raw expl = 0 → mainNum raw expl = none) := by
  constructor
  · intro h
    have hvr : valid_responses raw expl = yes_count raw expl + no_count raw expl :=
      ((counts_partition raw expl).2).symm
    have hcast : (valid_responses raw expl : ℝ)
        = (yes_count raw expl : ℝ) + (no_count raw expl : ℝ) := by
      rw [hvr]; push_cast; ring
    unfold mainNum
    rw [if_pos h, hcast]
  · intro h
    unfold mainNum
    rw [if_neg (by omega)]

/-- Witness for C4 on the batches `["yes"]` (one valid response) and
`["maybe"]` (zero valid responses), in terse mode. -/
theorem estimate_ratio_witness :
    (0 < valid_responses ["yes"] false ∧
      mainNum ["yes"] false = some
        ⟨(yes_count ["yes"] false : ℝ)
            / ((yes_count ["yes"] false : ℝ) + (no_count ["yes"] false : ℝ)) * 100,
         (betaInterval 0.95 (yes_count ["yes"] false + 1) (no_count ["yes"] false + 1)).1 * 100,
         (betaInterval 0.95 (yes_count ["yes"] false + 1) (no_count ["yes"] false + 1)).2 * 100⟩) ∧
    (valid_responses ["maybe"] false = 0 ∧ mainNum ["maybe"] false = none) :=
  ⟨⟨by decide, (estimate_ratio_and_zero_valid ["yes"] false).1 (by decide)⟩,
   ⟨by decide, (estimate_ratio_and_zero_valid ["maybe"] false).2 (by decide)⟩⟩

/-- C5: whenever at least one valid response exists, the reported interval is
exactly the pair of the 2.5th and 97.5th percentiles of the
Beta(yesCount + 1, noCount + 1) distribution, expressed as percentages; the
smoothing keeps both parameters at least `1`, and the interval is well
defined: its endpoints lie within `[0, 100]`. -/
theorem interval_is_beta_percentiles (raw : List String) (expl : Bool)
    (h : 0 < valid_responses raw expl) :
    ∃ rep : NumReport, mainNum raw expl = some rep ∧
      rep.ciLow = betaPpf (yes_count raw expl + 1) (no_count raw expl + 1) 0.025 * 100 ∧
      rep.ciHigh = betaPpf (yes_count raw expl + 1) (no_count raw expl + 1) 0.975 * 100 ∧
      1 ≤ yes_count raw expl + 1 ∧ 1 ≤ no_count raw expl + 1 ∧
      0 ≤ rep.ciLow ∧ rep.ciHigh ≤ 100 := by
  refine ⟨⟨(yes_count raw expl : ℝ) / (valid_responses raw expl : ℝ) * 100,
           (betaInterval 0.95 (yes_count raw expl + 1) (no_count raw expl + 1)).1 * 100,
           (betaInterval 0.95 (yes_count raw expl + 1) (no_count raw expl + 1)).2 * 100⟩,
    ?_, ?_, ?_, by omega, by omega, ?_, ?_⟩
  · unfold mainNum
    rw [if_pos h]
  · rw [betaInterval_095]
  · rw [betaInterval_095]
  · rw [betaInterval_095]
    have := betaPpf_nonneg (yes_count raw expl + 1) (no_count raw expl + 1)
      (0.025 : ℝ) (by norm_num)
    simp only
    nlinarith
  · rw [betaInterval_095]
    have := betaPpf_le_one (yes_count raw expl + 1) (no_count raw expl + 1)
      (0.975 : ℝ) (by norm_num)
    simp only
    nlinarith

/-- Witness for C5 on the batch `["no"]` in terse mode. -/
theorem interval_percentiles_witness :
    0 < valid_responses ["no"] false ∧
    (∃ rep : NumReport, mainNum ["no"] false = some rep ∧
      rep.ciLow = betaPpf (yes_count ["no"] false + 1) (no_count ["no"] false + 1) 0.025 * 100 ∧
      rep.ciHigh = betaPpf (yes_count ["no"] false + 1) (no_count ["no"] false + 1) 0.975 * 100 ∧
      1 ≤ yes_count ["no"] false + 1 ∧ 1 ≤ no_count ["no"] false + 1 ∧
      0 ≤ rep.ciLow ∧ rep.ciHigh ≤ 100) :=
  ⟨by decide, interval_is_beta_percentiles ["no"] false (by decide)⟩

/-- C8 counterexample: on the unanimous-yes batch `["yes"]` the estimate is
`100` while the interval's high bound is `betaPpf 2 1 0.975 * 100 < 100`
(the 97.5th percentile of Beta(2,1) is `sqrt 0.975 < 1`), so the claimed
chain `low ≤ estimate ≤ high` fails: the estimate exceeds the high bound. -/
theorem interval_excludes_estimate_at_unanimous_yes :
    mainNum ["yes"] false
      = some ⟨100, betaPpf 2 1 0.025 * 100, betaPpf 2 1 0.975 * 100⟩ ∧
    betaPpf 2 1 0.975 * 100 < 100 := by
  constructor
  · unfold mainNum
    rw [if_pos (by decide : 0 < valid_responses ["yes"] false)]
    have h1 : yes_count ["yes"] false = 1 := by decide
    have h2 : no_count ["yes"] false = 0 := by decide
    have h3 : valid_responses ["yes"] false = 1 := by decide
    rw [h1, h2, h3, betaInterval_095]
    norm_num
  · have := betaPpf_b_one_lt_one 2 (by omega) 0.975 (by norm_num) (by norm_num)
    linarith

/-- C8 amended: whenever defined, the reported bounds satisfy
`0 ≤ low ≤ high ≤ 100` (the estimate need not lie between them: with
`noCount = 0` the estimate is `100`, strictly above the high bound); moreover
with `noCount = 0` the high bound stays strictly below `100`, and with
`yesCount = 0` the low bound stays strictly above `0`. -/
theorem interval_bounds (raw : List String) (expl : Bool)
    (h : 0 < valid_responses raw expl) :
    ∃ rep : NumReport, mainNum raw expl = some rep ∧
      0 ≤ rep.ciLow ∧ rep.ciLow ≤ rep.ciHigh ∧ rep.ciHigh ≤ 100 ∧
      (no_count raw expl = 0 → rep.ciHigh < 100) ∧
      (yes_count raw expl = 0 → 0 < rep.ciLow) := by
  refine ⟨⟨(yes_count raw expl : ℝ) / (valid_responses raw expl : ℝ) * 100,
           (betaInterval 0.95 (yes_count raw expl + 1) (no_count raw expl + 1)).1 * 100,
           (betaInterval 0.95 (yes_count raw expl + 1) (no_count raw expl + 1)).2 * 100⟩,
    ?_, ?_, ?_, ?_, ?_, ?_⟩
  · unfold mainNum
    rw [if_pos h]
  · rw [betaInterval_095]
    have := betaPpf_nonneg (yes_count raw expl + 1) (no_count raw expl + 1)
      (0.025 : ℝ) (by norm_num)
    simp only
    nlinarith
  · rw [betaInterval_095]
    have := betaPpf_mono (yes_count raw expl + 1) (no_count raw expl + 1)
      (0.025 : ℝ) (0.975 : ℝ) (by norm_num) (by norm_num)
    simp only
    nlinarith
  · rw [betaInterval_095]
    have := betaPpf_le_one (yes_count raw expl + 1) (no_count raw expl + 1)
      (0.975 : ℝ) (by norm_num)
    simp only
    nlinarith
  · intro hno
    rw [betaInterval_095, hno]
    have := betaPpf_b_one_lt_one (yes_count raw expl + 1) (by omega)
      (0.975 : ℝ) (by norm_num) (by norm_num)
    simp only
    nlinarith
  · intro hyes
    rw [betaInterval_095, hyes]
    have := betaPpf_a_one_pos (no_count raw expl + 1) (by omega)
      (0.025 : ℝ) (by norm_num) (by norm_num)
    simp only
    nlinarith

/-- Witness for C8 on the batch `["yes", "no"]` in terse mode. -/
theorem interval_bounds_witness :
    0 < valid_responses ["yes", "no"] false ∧
    (∃ rep : NumReport, mainNum ["yes", "no"] false = some rep ∧
      0 ≤ rep.ciLow ∧ rep.ciLow ≤ rep.ciHigh ∧ rep.ciHigh ≤ 100 ∧
      (no_count ["yes", "no"] false = 0 → rep.ciHigh < 100) ∧
      (yes_count ["yes", "no"] false = 0 → 0 < rep.ciLow)) :=
  ⟨by decide, interval_bounds ["yes", "no"] false (by decide)⟩
